import Mathlib

/-!
Verification of the AppleHealthDashboard ingestion pipeline.

This file is a shallow embedding, in Lean 4, of the parts of the repository
that the specification's testable claims are about:

* the temporal codec (apple_health_records._parse_apple_datetime, modelling
  CPython datetime.strptime with format "%Y-%m-%d %H:%M:%S %z",
  sqlite_store._dt_to_iso via datetime.isoformat, and datetime.fromisoformat
  restricted to the canonical strings isoformat emits for whole-second,
  whole-minute-offset aware datetimes);
* the numeric codec (_to_float / _to_int, modelling CPython float() string
  conversion and int() truncation; decimal literals are modelled by their
  exact rational value, with the binary64 overflow-to-infinity threshold
  applied, since the binary rounding of in-range literals is below the
  granularity of every property settled here);
* the three streaming extractors over an element model of the export
  document (iter_records_from_export_xml, iter_workouts_from_export_xml,
  iter_activity_summaries_from_export_xml);
* the stable content hashes (stable_record_hash / stable_workout_hash; the
  SHA-256 hexdigest step is omitted and the hash is modelled by the
  pipe-joined payload it digests: the digest is a deterministic function of
  that payload, so every payload equality transfers to digest equality);
* the SQLite store's insert-or-ignore upserts (modelled as list tables with
  a uniqueness key per table) and the import orchestrator
  import_export_xml_to_sqlite_all (batch flush boundaries are dropped: they
  do not change the final table contents or the summed rowcounts);
* the zip candidate selection of app._extract_export_xml_from_zip.

Python exceptions that escape a function are modelled with Except; a caught
exception is a None/none result, matching the source's try/except blocks.
-/

namespace AppleHealth

set_option maxRecDepth 10000

/-! ## Character and digit utilities -/

/-- Numeric value of an ASCII digit character, none otherwise.  This models
the \d character class as used by CPython's strptime regexes restricted to
ASCII (non-ASCII Unicode digits never occur in the fixed export format). -/
def digitVal? (c : Char) : Option Nat :=
  if '0' ≤ c ∧ c ≤ '9' then some (c.toNat - 48) else none

/-- Consume exactly k digit characters, accumulating their value onto acc. -/
def takeDigits : Nat → Nat → List Char → Option (Nat × List Char)
  | 0, acc, cs => some (acc, cs)
  | k + 1, acc, c :: cs =>
    match digitVal? c with
    | some v => takeDigits k (acc * 10 + v) cs
    | none => none
  | _ + 1, _, [] => none

/-- Consume one or two digit characters, greedily.  This matches the
behaviour of strptime's ordered alternations for two-digit fields (the
regex either takes both digits, or one digit followed by a non-digit;
out-of-range two-digit values fail there and fail here at the validity
gate, see mkValidDt). -/
def take2Greedy : List Char → Option (Nat × List Char)
  | [] => none
  | c :: cs =>
    match digitVal? c with
    | none => none
    | some v =>
      match cs with
      | [] => some (v, [])
      | c2 :: cs2 =>
        match digitVal? c2 with
        | some v2 => some (v * 10 + v2, cs2)
        | none => some (v, cs)

/-- Consume one expected literal character. -/
def expectChar (c : Char) : List Char → Option (List Char)
  | [] => none
  | d :: cs => if d = c then some cs else none

/-- Whitespace as matched by Python's regex class used for a literal blank
in a strptime format string. -/
def isPyWs (c : Char) : Bool :=
  c = ' ' ∨ c = '\t' ∨ c = '\n' ∨ c = '\r' ∨ c = '\x0b' ∨ c = '\x0c'

/-- Consume one or more whitespace characters (a blank in a strptime format
matches one or more whitespace characters). -/
def skipWs1 : List Char → Option (List Char)
  | [] => none
  | c :: cs => if isPyWs c then some (cs.dropWhile isPyWs) else none

/-! ## The temporal codec -/

/-- Timezone-aware instant as produced by datetime.strptime with %z: the
wall-clock fields plus the UTC offset of the attached fixed-offset
timezone, in minutes. -/
structure PyDatetime where
  year : Nat
  month : Nat
  day : Nat
  hour : Nat
  minute : Nat
  second : Nat
  tzOffsetMinutes : Int
deriving DecidableEq

/-- Leap year rule of the proleptic Gregorian calendar used by datetime. -/
def isLeapYear (y : Nat) : Bool :=
  y % 4 == 0 && (y % 100 != 0 || y % 400 == 0)

/-- Days in a month, as validated by the datetime/date constructors. -/
def daysInMonth (y m : Nat) : Nat :=
  if m = 2 then (if isLeapYear y then 29 else 28)
  else if m = 4 ∨ m = 6 ∨ m = 9 ∨ m = 11 then 30 else 31

/-- Field ranges enforced by the datetime constructor (MINYEAR..MAXYEAR,
calendar-valid day, clock ranges) and by timezone() on the offset
(strictly between -24 and +24 hours). -/
def validDt (d : PyDatetime) : Bool :=
  decide (1 ≤ d.year ∧ d.year ≤ 9999 ∧ 1 ≤ d.month ∧ d.month ≤ 12 ∧
    1 ≤ d.day ∧ d.day ≤ daysInMonth d.year d.month ∧
    d.hour ≤ 23 ∧ d.minute ≤ 59 ∧ d.second ≤ 59 ∧
    -1440 < d.tzOffsetMinutes ∧ d.tzOffsetMinutes < 1440)

/-- Final construction step of a parsed datetime: the datetime and timezone
constructors validate the fields and raise ValueError (here: none) on any
out-of-range value. -/
def mkValidDt (y mo dd h mi s : Nat) (off : Int) : Option PyDatetime :=
  let d : PyDatetime := ⟨y, mo, dd, h, mi, s, off⟩
  if validDt d then some d else none

/-- UTC-offset part of strptime's %z directive, restricted to the shapes
that occur for this exporter: Z, or a sign followed by two hour digits, an
optional colon and two minute digits.  (CPython additionally accepts a
seconds-and-fraction tail, which the export format never produces.)  The
offset range is validated in mkValidDt, where CPython's timezone()
constructor raises. -/
def parseOffsetMag (sign : Int) (cs : List Char) : Option (Int × List Char) :=
  match takeDigits 2 0 cs with
  | none => none
  | some (hh, rest) =>
    let rest2 := match rest with
      | ':' :: r => r
      | r => r
    match takeDigits 2 0 rest2 with
    | none => none
    | some (mm, rest3) => some (sign * (hh * 60 + mm), rest3)

/-- Sign dispatch of the %z directive.  A bare Z denotes UTC. -/
def parseOffset : List Char → Option (Int × List Char)
  | 'Z' :: cs => some (0, cs)
  | '+' :: cs => parseOffsetMag 1 cs
  | '-' :: cs => parseOffsetMag (-1) cs
  | _ => none

/-- Model of _parse_apple_datetime, that is datetime.strptime with the
fixed format "%Y-%m-%d %H:%M:%S %z": four year digits, one-or-two-digit
month/day/hour/minute/second fields, literal separators, one-or-more
whitespace for each blank, a %z offset, and nothing left over; the
datetime constructor then validates the fields.  ValueError is none. -/
def parseAppleDatetime (s : String) : Option PyDatetime := do
  let py ← takeDigits 4 0 s.data
  let r1 ← expectChar '-' py.2
  let pmo ← take2Greedy r1
  let r2 ← expectChar '-' pmo.2
  let pdd ← take2Greedy r2
  let r3 ← skipWs1 pdd.2
  let ph ← take2Greedy r3
  let r4 ← expectChar ':' ph.2
  let pmi ← take2Greedy r4
  let r5 ← expectChar ':' pmi.2
  let psec ← take2Greedy r5
  let r6 ← skipWs1 psec.2
  let poff ← parseOffset r6
  if poff.2.isEmpty then mkValidDt py.1 pmo.1 pdd.1 ph.1 pmi.1 psec.1 poff.1 else none

/-- Two-digit zero-padded rendering used by isoformat's %02d fields. -/
def pad2 (n : Nat) : List Char := [Nat.digitChar (n / 10), Nat.digitChar (n % 10)]

/-- Four-digit zero-padded rendering used by isoformat's %04d year. -/
def pad4 (n : Nat) : List Char :=
  [Nat.digitChar (n / 1000), Nat.digitChar (n / 100 % 10),
   Nat.digitChar (n / 10 % 10), Nat.digitChar (n % 10)]

/-- The +HH:MM / -HH:MM offset suffix isoformat emits for an aware
datetime with a whole-minute offset. -/
def offsetChars (off : Int) : List Char :=
  (if off < 0 then '-' else '+') ::
    (pad2 (off.natAbs / 60) ++ ':' :: pad2 (off.natAbs % 60))

/-- Character sequence of datetime.isoformat() for a whole-second aware
datetime: YYYY-MM-DDTHH:MM:SS followed by the signed offset. -/
def isoChars (d : PyDatetime) : List Char :=
  pad4 d.year ++ '-' :: (pad2 d.month ++ '-' :: (pad2 d.day ++ 'T' ::
    (pad2 d.hour ++ ':' :: (pad2 d.minute ++ ':' ::
      (pad2 d.second ++ offsetChars d.tzOffsetMinutes)))))

/-- Model of sqlite_store._dt_to_iso on a present datetime: the canonical
ISO-8601 string datetime.isoformat() produces. -/
def dtToIso (d : PyDatetime) : String := String.mk (isoChars d)

/-- Offset part of datetime.fromisoformat, restricted to the canonical
sign-HH:MM shape that isoformat emits (the only shape this program ever
stores). -/
def parseIsoOffsetMag (sign : Int) (cs : List Char) : Option (Int × List Char) := do
  let ph ← takeDigits 2 0 cs
  let r ← expectChar ':' ph.2
  let pm ← takeDigits 2 0 r
  some (sign * (ph.1 * 60 + pm.1), pm.2)

/-- Sign dispatch of the stored-offset parser. -/
def parseIsoOffset : List Char → Option (Int × List Char)
  | '+' :: cs => parseIsoOffsetMag 1 cs
  | '-' :: cs => parseIsoOffsetMag (-1) cs
  | _ => none

/-- Model of datetime.fromisoformat as used on storage-side strings,
restricted to the canonical serialization this program writes:
YYYY-MM-DDTHH:MM:SS with a mandatory signed offset, fields validated by
the datetime constructor. -/
def parseIsoDatetime (s : String) : Option PyDatetime := do
  let py ← takeDigits 4 0 s.data
  let r1 ← expectChar '-' py.2
  let pmo ← takeDigits 2 0 r1
  let r2 ← expectChar '-' pmo.2
  let pdd ← takeDigits 2 0 r2
  let r3 ← expectChar 'T' pdd.2
  let ph ← takeDigits 2 0 r3
  let r4 ← expectChar ':' ph.2
  let pmi ← takeDigits 2 0 r4
  let r5 ← expectChar ':' pmi.2
  let psec ← takeDigits 2 0 r5
  let poff ← parseIsoOffset psec.2
  if poff.2.isEmpty then mkValidDt py.1 pmo.1 pdd.1 ph.1 pmi.1 psec.1 poff.1 else none

/-- Calendar day as produced by date.fromisoformat. -/
structure PyDate where
  year : Nat
  month : Nat
  day : Nat
deriving DecidableEq

/-- Field ranges enforced by the date constructor. -/
def validDate (d : PyDate) : Bool :=
  decide (1 ≤ d.year ∧ d.year ≤ 9999 ∧ 1 ≤ d.month ∧ d.month ≤ 12 ∧
    1 ≤ d.day ∧ d.day ≤ daysInMonth d.year d.month)

/-- Model of _parse_apple_date, that is date.fromisoformat on the bare
YYYY-MM-DD shape Apple emits for dateComponents.  ValueError is none. -/
def parseAppleDate (s : String) : Option PyDate := do
  let py ← takeDigits 4 0 s.data
  let r1 ← expectChar '-' py.2
  let pm ← takeDigits 2 0 r1
  let r2 ← expectChar '-' pm.2
  let pd ← takeDigits 2 0 r2
  if pd.2.isEmpty then
    let d : PyDate := ⟨py.1, pm.1, pd.1⟩
    if validDate d then some d else none
  else none

/-- Model of date.isoformat, used for the activity_summary day key. -/
def dateToIso (d : PyDate) : String :=
  String.mk (pad4 d.year ++ '-' :: (pad2 d.month ++ '-' :: pad2 d.day))

/-! ## The numeric codec -/

/-- Value of a Python float: an exact rational for finite values, or one of
the three non-finite values.  Decimal literals are modelled by their exact
rational value; see the module comment for the scope of this modelling
choice. -/
inductive PyFloat where
  | finite (q : ℚ)
  | inf
  | neginf
  | nan
deriving DecidableEq

/-- Maximal run of digits with single underscores between digits, as the
float() grammar allows.  Returns the digits (underscores removed) and the
unconsumed rest; an underscore not followed by a digit is left in the
rest, making the surrounding literal invalid. -/
def lexDigitsRun : List Char → List Char × List Char
  | '_' :: c :: cs =>
    if c.isDigit then
      let p := lexDigitsRun cs
      (c :: p.1, p.2)
    else ([], '_' :: c :: cs)
  | c :: cs =>
    if c.isDigit then
      let p := lexDigitsRun cs
      (c :: p.1, p.2)
    else ([], c :: cs)
  | [] => ([], [])

/-- Possibly-empty digit group: empty unless the first character is a
digit (a group may not start with an underscore). -/
def lexDigitsOpt : List Char → List Char × List Char
  | [] => ([], [])
  | c :: cs =>
    if c.isDigit then
      let p := lexDigitsRun cs
      (c :: p.1, p.2)
    else ([], c :: cs)

/-- Numeric value of a digit string. -/
def natOfDigits (ds : List Char) : Nat :=
  ds.foldl (fun a c => a * 10 + (c.toNat - 48)) 0

/-- Exact rational value of a decimal float literal after sign removal and
lowercasing: digit group, optional point and fraction group, optional
exponent; at least one mantissa digit; nothing left over.  The value of
the literal int.frac e ex is the concatenated digit value scaled by
10 ^ (ex - length frac), built here with mkRat so that the construction
is kernel-computable. -/
def parseDecimal (cs : List Char) : Option ℚ :=
  let pInt := lexDigitsOpt cs
  let pFrac := match pInt.2 with
    | '.' :: r => lexDigitsOpt r
    | r => ([], r)
  if pInt.1.isEmpty ∧ pFrac.1.isEmpty then none
  else
    let expVal : Option Int := match pFrac.2 with
      | [] => some 0
      | 'e' :: r3 =>
        let pSign : Int × List Char := match r3 with
          | '+' :: t => (1, t)
          | '-' :: t => (-1, t)
          | t => (1, t)
        let pExp := lexDigitsOpt pSign.2
        if pExp.1.isEmpty ∨ ¬pExp.2.isEmpty then none
        else some (pSign.1 * (natOfDigits pExp.1 : Int))
      | _ => none
    match expVal with
    | none => none
    | some ex =>
      let scale : Int := ex - (pFrac.1.length : Int)
      let digitsVal : Nat := natOfDigits (pInt.1 ++ pFrac.1)
      some
        (if 0 ≤ scale then mkRat ((digitsVal : Int) * (10 : Int) ^ scale.toNat) 1
         else mkRat (digitsVal : Int) ((10 : Nat) ^ (-scale).toNat))

/-- Smallest magnitude at which binary64 round-to-nearest overflows to
infinity; float() returns an infinity for any literal at or past it.
The numeral is the integer 2 ^ 1024 - 2 ^ 970, written out so that the
bound is kernel-computable (a sanity theorem below re-checks the
equality). -/
def doubleOverflowBound : ℚ :=
  mkRat 179769313486231580793728971405303415079934132710037826936173778980444968292764750946649017977587207096330286416692887910946555547851940402630657488671505820681908902000708383676273854845817711531764475730270069855571366959622842914819860834936475292719074168444365510704342711559699508093042880177904174497792 1

/-- Classify an exact literal value as the float() result. -/
def classifyDouble (q : ℚ) : PyFloat :=
  if doubleOverflowBound ≤ q then .inf
  else if q ≤ -doubleOverflowBound then .neginf
  else .finite q

/-- Model of CPython float() on a string: strip surrounding whitespace, an
optional sign, then case-insensitively inf, infinity, nan, or a decimal
literal.  ValueError is none. -/
def pyFloatOfString (s : String) : Option PyFloat :=
  let stripped := ((s.data.dropWhile isPyWs).reverse.dropWhile isPyWs).reverse
  let pSign : Bool × List Char := match stripped with
    | '+' :: r => (false, r)
    | '-' :: r => (true, r)
    | r => (false, r)
  let body := pSign.2.map Char.toLower
  if body = ['i', 'n', 'f'] ∨ body = ['i', 'n', 'f', 'i', 'n', 'i', 't', 'y'] then
    some (if pSign.1 then .neginf else .inf)
  else if body = ['n', 'a', 'n'] then some .nan
  else
    match parseDecimal body with
    | none => none
    | some q => some (classifyDouble (if pSign.1 then -q else q))

/-- Model of _to_float: absent attribute stays absent, an unparseable
string is caught (ValueError) and becomes None. -/
def toFloatModel : Option String → Option PyFloat
  | none => none
  | some s => pyFloatOfString s

/-- Exceptions that escape the extractors: ValueError from strptime on a
record or workout timestamp, ValueError from date.fromisoformat on a
summary day, and OverflowError from int() applied to an infinite float. -/
inductive ExtractError where
  | malformedTimestamp (s : String)
  | malformedDate (s : String)
  | overflowError
deriving DecidableEq

/-- Truncation toward zero performed by int() on a finite float. -/
def ratTruncTowardZero (q : ℚ) : Int := q.num.tdiv q.den

/-- Model of _to_int, that is int(float(value)) guarded by
"except ValueError": float() failure and int(nan) are caught and give
None; int(plus-or-minus infinity) raises OverflowError, which the except
clause does not catch and which therefore escapes to the caller. -/
def toIntModel : Option String → Except ExtractError (Option Int)
  | none => .ok none
  | some s =>
    match pyFloatOfString s with
    | none => .ok none
    | some (.finite q) => .ok (some (ratTruncTowardZero q))
    | some .nan => .ok none
    | some .inf => .error .overflowError
    | some .neginf => .error .overflowError

/-- Rendering of a float value inside the hash payload (repr in the
source).  repr is an injective, deterministic rendering of float values
(shortest round-tripping decimal); the model renders the exact value
canonically.  No claim settled here depends on the concrete digits, only
on determinism and injectivity, which both renderings share. -/
def pyFloatRepr : PyFloat → String
  | .finite q => toString q.num ++ "/" ++ toString q.den
  | .inf => "inf"
  | .neginf => "-inf"
  | .nan => "nan"

/-! ## Element model of the export document

The export schema (spec section 6) has Record, Workout and ActivitySummary
elements as siblings under the root, with MetadataEntry children under
Record and Workout.  iterparse with end events visits children before
their parent; child tags never equal a target tag, so each extractor sees
exactly the top-level element sequence in document order, with the
children available on each element. -/

/-- Child element: tag plus attribute map. -/
structure XmlChild where
  tag : String
  attrib : List (String × String)
deriving DecidableEq

/-- Top-level element: tag, attribute map and child elements in document
order.  Attribute lookup models dict.get on the unique attribute names of
an element. -/
structure XmlElem where
  tag : String
  attrib : List (String × String)
  children : List XmlChild
deriving DecidableEq

/-- Export document: the top-level elements in document order. -/
abbrev XmlDoc := List XmlElem

/-! ## Entities and stable hashes -/

/-- Normalized representation of an Apple Health Record element. -/
structure Record where
  record_type : String
  start_at : PyDatetime
  end_at : PyDatetime
  creation_at : Option PyDatetime
  source_name : Option String
  unit : Option String
  value : Option PyFloat
  value_str : Option String
deriving DecidableEq

/-- Key/value annotation of a record, addressed by the record's hash. -/
structure RecordMetadata where
  record_hash : String
  key : String
  value : String
deriving DecidableEq

/-- Normalized representation of an Apple Health Workout element. -/
structure Workout where
  workout_activity_type : String
  start_at : PyDatetime
  end_at : PyDatetime
  creation_at : Option PyDatetime
  source_name : Option String
  device : Option String
  duration_s : Option PyFloat
  total_energy_kcal : Option PyFloat
  total_distance_m : Option PyFloat
deriving DecidableEq

/-- Key/value annotation of a workout, addressed by the workout's hash. -/
structure WorkoutMetadata where
  workout_hash : String
  key : String
  value : String
deriving DecidableEq

/-- One calendar day's activity summary. -/
structure ActivitySummary where
  day : PyDate
  active_energy_burned_kcal : Option Int
  active_energy_burned_goal_kcal : Option Int
  apple_exercise_time_min : Option Int
  apple_exercise_time_goal_min : Option Int
  apple_stand_hours : Option Int
  apple_stand_hours_goal : Option Int
deriving DecidableEq

/-- The "x or empty-string" rendering of optional string fields in the
hash payloads.  Note that a present empty string and an absent value
render identically, exactly as the source's "field or empty" idiom does. -/
def optStr : Option String → String
  | none => ""
  | some s => s

/-- The eight payload components of stable_record_hash, in its fixed
order. -/
def renderedRecordFields (r : Record) : List String :=
  [r.record_type, dtToIso r.start_at, dtToIso r.end_at,
   (match r.creation_at with
    | some d => dtToIso d
    | none => ""),
   optStr r.source_name, optStr r.unit,
   (match r.value with
    | some v => pyFloatRepr v
    | none => ""),
   optStr r.value_str]

/-- The pipe join performed before digesting. -/
def pipeJoin : List String → String
  | [] => ""
  | [x] => x
  | x :: xs => x ++ "|" ++ pipeJoin xs

/-- Model of stable_record_hash.  The SHA-256 hexdigest of the payload is
omitted: the digest is a deterministic function of the payload string, so
every hash property settled here is stated and settled at payload level. -/
def stableRecordHash (r : Record) : String := pipeJoin (renderedRecordFields r)

/-- The nine payload components of stable_workout_hash, in its fixed
order. -/
def renderedWorkoutFields (w : Workout) : List String :=
  [w.workout_activity_type, dtToIso w.start_at, dtToIso w.end_at,
   (match w.creation_at with
    | some d => dtToIso d
    | none => ""),
   optStr w.source_name, optStr w.device,
   (match w.duration_s with
    | some v => pyFloatRepr v
    | none => ""),
   (match w.total_energy_kcal with
    | some v => pyFloatRepr v
    | none => ""),
   (match w.total_distance_m with
    | some v => pyFloatRepr v
    | none => "")]

/-- Model of stable_workout_hash, payload-level as for records. -/
def stableWorkoutHash (w : Workout) : String := pipeJoin (renderedWorkoutFields w)

/-! ## Streaming extractors -/

/-- Lift of _parse_apple_datetime into the extractor's effect: an
unparseable timestamp raises ValueError to the iterator's consumer. -/
def parseDtE (s : String) : Except ExtractError PyDatetime :=
  match parseAppleDatetime s with
  | some d => .ok d
  | none => .error (.malformedTimestamp s)

/-- The creationDate handling shared by records and workouts: a missing or
empty attribute is None without parsing; a present non-empty attribute is
parsed and an unparseable one raises. -/
def creationFromAttrib : Option String → Except ExtractError (Option PyDatetime)
  | none => .ok none
  | some cs =>
    if cs.isEmpty then .ok none
    else
      match parseAppleDatetime cs with
      | some d => .ok (some d)
      | none => .error (.malformedTimestamp cs)

/-- Record construction from an element's attributes, mirroring
iter_records_from_export_xml: required attributes type, startDate and
endDate must be present and non-empty (Python truthiness) or the element
is skipped; the value attribute is tried as a float first, falling back to
the raw string; startDate, endDate and a present creationDate are parsed,
raising on malformed input; every other attribute is passed through. -/
def recordFromAttrib (attrib : List (String × String)) : Except ExtractError (Option Record) :=
  match attrib.lookup "type", attrib.lookup "startDate", attrib.lookup "endDate" with
  | some ts, some ss, some es =>
    if ts.isEmpty || ss.isEmpty || es.isEmpty then .ok none
    else
      let rawValue := attrib.lookup "value"
      let value := toFloatModel rawValue
      let valueStr : Option String := match value with
        | some _ => none
        | none => rawValue
      match parseDtE ss with
      | .error err => .error err
      | .ok startAt =>
        match parseDtE es with
        | .error err => .error err
        | .ok endAt =>
          match creationFromAttrib (attrib.lookup "creationDate") with
          | .error err => .error err
          | .ok creationAt =>
            .ok (some
              { record_type := ts, start_at := startAt, end_at := endAt,
                creation_at := creationAt,
                source_name := attrib.lookup "sourceName",
                unit := attrib.lookup "unit",
                value := value, value_str := valueStr })
  | _, _, _ => .ok none

/-- One metadata entry per MetadataEntry child carrying both a key and a
value attribute; other tags and incomplete entries yield nothing. -/
def recordMetaChild (h : String) (c : XmlChild) : Option RecordMetadata :=
  if c.tag = "MetadataEntry" then
    match c.attrib.lookup "key", c.attrib.lookup "value" with
    | some k, some v => some ⟨h, k, v⟩
    | _, _ => none
  else none

/-- Processing of one end-event element by the record extractor: non-Record
tags are passed over, then the attribute phase builds the record and the
child phase collects its metadata under the record's hash. -/
def extractRecordElem (e : XmlElem) :
    Except ExtractError (Option (Record × List RecordMetadata)) :=
  if e.tag = "Record" then
    match recordFromAttrib e.attrib with
    | .error err => .error err
    | .ok none => .ok none
    | .ok (some r) =>
      .ok (some (r, e.children.filterMap (recordMetaChild (stableRecordHash r))))
  else .ok none

/-- Model of iter_records_from_export_xml, as the list of yielded pairs in
document order; an exception raised while processing an element
propagates to the consumer and ends the iteration. -/
def iterRecords : XmlDoc → Except ExtractError (List (Record × List RecordMetadata))
  | [] => .ok []
  | e :: rest =>
    match extractRecordElem e with
    | .error err => .error err
    | .ok none => iterRecords rest
    | .ok (some p) =>
      match iterRecords rest with
      | .error err => .error err
      | .ok tail => .ok (p :: tail)

/-- Workout construction from an element's attributes, mirroring
iter_workouts_from_export_xml. -/
def workoutFromAttrib (attrib : List (String × String)) : Except ExtractError (Option Workout) :=
  match attrib.lookup "workoutActivityType", attrib.lookup "startDate",
      attrib.lookup "endDate" with
  | some wt, some ss, some es =>
    if wt.isEmpty || ss.isEmpty || es.isEmpty then .ok none
    else
      match parseDtE ss with
      | .error err => .error err
      | .ok startAt =>
        match parseDtE es with
        | .error err => .error err
        | .ok endAt =>
          match creationFromAttrib (attrib.lookup "creationDate") with
          | .error err => .error err
          | .ok creationAt =>
            .ok (some
              { workout_activity_type := wt, start_at := startAt, end_at := endAt,
                creation_at := creationAt,
                source_name := attrib.lookup "sourceName",
                device := attrib.lookup "device",
                duration_s := toFloatModel (attrib.lookup "duration"),
                total_energy_kcal := toFloatModel (attrib.lookup "totalEnergyBurned"),
                total_distance_m := toFloatModel (attrib.lookup "totalDistance") })
  | _, _, _ => .ok none

/-- Metadata entry of a workout child, analogous to recordMetaChild. -/
def workoutMetaChild (h : String) (c : XmlChild) : Option WorkoutMetadata :=
  if c.tag = "MetadataEntry" then
    match c.attrib.lookup "key", c.attrib.lookup "value" with
    | some k, some v => some ⟨h, k, v⟩
    | _, _ => none
  else none

/-- Processing of one element by the workout extractor. -/
def extractWorkoutElem (e : XmlElem) :
    Except ExtractError (Option (Workout × List WorkoutMetadata)) :=
  if e.tag = "Workout" then
    match workoutFromAttrib e.attrib with
    | .error err => .error err
    | .ok none => .ok none
    | .ok (some w) =>
      .ok (some (w, e.children.filterMap (workoutMetaChild (stableWorkoutHash w))))
  else .ok none

/-- Model of iter_workouts_from_export_xml. -/
def iterWorkouts : XmlDoc → Except ExtractError (List (Workout × List WorkoutMetadata))
  | [] => .ok []
  | e :: rest =>
    match extractWorkoutElem e with
    | .error err => .error err
    | .ok none => iterWorkouts rest
    | .ok (some p) =>
      match iterWorkouts rest with
      | .error err => .error err
      | .ok tail => .ok (p :: tail)

/-- Summary construction from an element's attributes, mirroring
iter_activity_summaries_from_export_xml: dateComponents must be present
and non-empty or the element is skipped; the day is parsed (raising on
malformed input) and the six integer fields go through _to_int (whose
OverflowError on infinite values also escapes). -/
def summaryFromAttrib (attrib : List (String × String)) :
    Except ExtractError (Option ActivitySummary) :=
  match attrib.lookup "dateComponents" with
  | none => .ok none
  | some day =>
    if day.isEmpty then .ok none
    else
      match parseAppleDate day with
      | none => .error (.malformedDate day)
      | some d => do
        let a1 ← toIntModel (attrib.lookup "activeEnergyBurned")
        let a2 ← toIntModel (attrib.lookup "activeEnergyBurnedGoal")
        let a3 ← toIntModel (attrib.lookup "appleExerciseTime")
        let a4 ← toIntModel (attrib.lookup "appleExerciseTimeGoal")
        let a5 ← toIntModel (attrib.lookup "appleStandHours")
        let a6 ← toIntModel (attrib.lookup "appleStandHoursGoal")
        pure (some ⟨d, a1, a2, a3, a4, a5, a6⟩)

/-- Processing of one element by the activity-summary extractor. -/
def extractSummaryElem (e : XmlElem) : Except ExtractError (Option ActivitySummary) :=
  if e.tag = "ActivitySummary" then summaryFromAttrib e.attrib else .ok none

/-- Model of iter_activity_summaries_from_export_xml. -/
def iterSummaries : XmlDoc → Except ExtractError (List ActivitySummary)
  | [] => .ok []
  | e :: rest =>
    match extractSummaryElem e with
    | .error err => .error err
    | .ok none => iterSummaries rest
    | .ok (some s) =>
      match iterSummaries rest with
      | .error err => .error err
      | .ok tail => .ok (s :: tail)

/-! ## Zip input handling -/

/-- Stable insertion of a string into a length-sorted list, before the
first strictly longer element. -/
def insertByLen (x : String) : List String → List String
  | [] => [x]
  | y :: ys => if x.length ≤ y.length then x :: y :: ys else y :: insertByLen x ys

/-- Stable sort by string length, modelling sorted(candidates, key=len). -/
def sortByLen : List String → List String
  | [] => []
  | x :: xs => insertByLen x (sortByLen xs)

/-- Model of str.endswith: suffix test on the character sequence. -/
def strEndsWith (s suffix : String) : Bool := suffix.data.isSuffixOf s.data

/-- Model of app._extract_export_xml_from_zip on the archive's name list:
filter the entries ending in export.xml; with no candidate raise
ValueError to the caller, otherwise extract the first entry of the
length-sorted candidates (a shortest one) and return its output path's
content source. -/
def extractExportXmlFromZip (namelist : List String) : Except String String :=
  let candidates := namelist.filter (fun n => strEndsWith n "export.xml")
  match sortByLen candidates with
  | [] => .error "No export.xml found in the zip."
  | chosen :: _ => .ok chosen

/-! ## The persistent store -/

/-- Row of the health_record table. -/
structure HealthRecordRow where
  rtype : String
  start_at : String
  end_at : String
  creation_at : Option String
  source_name : Option String
  unit : Option String
  value : Option PyFloat
  value_str : Option String
  record_hash : String
deriving DecidableEq

/-- Row of the workout table. -/
structure WorkoutRow where
  workout_activity_type : String
  start_at : String
  end_at : String
  creation_at : Option String
  source_name : Option String
  device : Option String
  duration_s : Option PyFloat
  total_energy_kcal : Option PyFloat
  total_distance_m : Option PyFloat
  workout_hash : String
deriving DecidableEq

/-- Row of the activity_summary table. -/
structure SummaryRow where
  day : String
  active_energy_burned_kcal : Option Int
  active_energy_burned_goal_kcal : Option Int
  apple_exercise_time_min : Option Int
  apple_exercise_time_goal_min : Option Int
  apple_stand_hours : Option Int
  apple_stand_hours_goal : Option Int
deriving DecidableEq

/-- The five tables of the schema, each as its row list in insertion
order.  The UNIQUE constraints are enforced by the upsert operation
below, keyed as in the schema: record_hash, the full metadata triple, the
day, and workout_hash. -/
structure Store where
  health_record : List HealthRecordRow
  record_metadata : List (String × String × String)
  activity_summary : List SummaryRow
  workout : List WorkoutRow
  workout_metadata : List (String × String × String)
deriving DecidableEq

/-- A freshly initialized database. -/
def emptyStore : Store := ⟨[], [], [], [], []⟩

/-- Row conversion performed by upsert_records. -/
def recordToRow (r : Record) : HealthRecordRow :=
  { rtype := r.record_type, start_at := dtToIso r.start_at, end_at := dtToIso r.end_at,
    creation_at := r.creation_at.map dtToIso,
    source_name := r.source_name, unit := r.unit,
    value := r.value, value_str := r.value_str,
    record_hash := stableRecordHash r }

/-- Row conversion performed by upsert_workouts. -/
def workoutToRow (w : Workout) : WorkoutRow :=
  { workout_activity_type := w.workout_activity_type,
    start_at := dtToIso w.start_at, end_at := dtToIso w.end_at,
    creation_at := w.creation_at.map dtToIso,
    source_name := w.source_name, device := w.device,
    duration_s := w.duration_s, total_energy_kcal := w.total_energy_kcal,
    total_distance_m := w.total_distance_m,
    workout_hash := stableWorkoutHash w }

/-- Row conversion performed by the importer for activity summaries. -/
def summaryToRow (s : ActivitySummary) : SummaryRow :=
  { day := dateToIso s.day,
    active_energy_burned_kcal := s.active_energy_burned_kcal,
    active_energy_burned_goal_kcal := s.active_energy_burned_goal_kcal,
    apple_exercise_time_min := s.apple_exercise_time_min,
    apple_exercise_time_goal_min := s.apple_exercise_time_goal_min,
    apple_stand_hours := s.apple_stand_hours,
    apple_stand_hours_goal := s.apple_stand_hours_goal }

/-- Whether the table already holds a row with the given key (the SELECT
implied by a UNIQUE constraint under INSERT OR IGNORE). -/
def hasKey {α κ : Type} [DecidableEq κ] (key : α → κ) (tbl : List α) (k : κ) : Bool :=
  tbl.any (fun y => decide (key y = k))

/-- INSERT OR IGNORE of a batch, row by row in batch order, against a
UNIQUE key: a row whose key is already present is ignored, any other row
is appended; returns the new table and the rowcount of actually inserted
rows (executemany's rowcount counts only the inserted ones, and a
duplicate later in the same batch is likewise ignored). -/
def upsertByKey {α κ : Type} [DecidableEq κ] (key : α → κ) :
    List α → List α → List α × Nat
  | tbl, [] => (tbl, 0)
  | tbl, x :: xs =>
    if hasKey key tbl (key x) then upsertByKey key tbl xs
    else
      let p := upsertByKey key (tbl ++ [x]) xs
      (p.1, p.2 + 1)

/-- The summary dict returned by import_export_xml_to_sqlite_all. -/
structure ImportCounts where
  records_inserted : Nat
  record_metadata_inserted : Nat
  activity_summaries_inserted : Nat
  workouts_inserted : Nat
  workout_metadata_inserted : Nat
deriving DecidableEq

/-- All-zero summary. -/
def zeroCounts : ImportCounts := ⟨0, 0, 0, 0, 0⟩

/-- Model of import_export_xml_to_sqlite_all: the records pass (rows plus
metadata triples), then the activity-summary pass, then the workouts pass,
each upserting into its tables; an exception raised in a pass propagates
to the caller (and, the passes being sequential, the later passes do not
run).  Batch flush boundaries are dropped: INSERT OR IGNORE row by row
gives the same final tables and the same summed rowcounts for any
chunking of the same row sequence. -/
def importAll (doc : XmlDoc) (s : Store) : Except ExtractError (Store × ImportCounts) :=
  match iterRecords doc with
  | .error err => .error err
  | .ok recs =>
    let rows := recs.map (fun p => recordToRow p.1)
    let metaRows := recs.flatMap (fun p => p.2.map (fun m => (m.record_hash, m.key, m.value)))
    let ur := upsertByKey HealthRecordRow.record_hash s.health_record rows
    let um := upsertByKey id s.record_metadata metaRows
    match iterSummaries doc with
    | .error err => .error err
    | .ok sums =>
      let srows := sums.map summaryToRow
      let us := upsertByKey SummaryRow.day s.activity_summary srows
      match iterWorkouts doc with
      | .error err => .error err
      | .ok wos =>
        let wrows := wos.map (fun p => workoutToRow p.1)
        let wmetaRows :=
          wos.flatMap (fun p => p.2.map (fun m => (m.workout_hash, m.key, m.value)))
        let uw := upsertByKey WorkoutRow.workout_hash s.workout wrows
        let uwm := upsertByKey id s.workout_metadata wmetaRows
        .ok
          ({ health_record := ur.1, record_metadata := um.1, activity_summary := us.1,
             workout := uw.1, workout_metadata := uwm.1 },
           { records_inserted := ur.2, record_metadata_inserted := um.2,
             activity_summaries_inserted := us.2,
             workouts_inserted := uw.2, workout_metadata_inserted := uwm.2 })

/-! ## Concrete inputs used by the witnesses and counterexamples -/

deriving instance DecidableEq for Except

/-- The instant 2020-01-01 10:00:00 +0100. -/
def dtA : PyDatetime := ⟨2020, 1, 1, 10, 0, 0, 60⟩

/-- The instant 2020-01-01 10:05:00 +0100. -/
def dtB : PyDatetime := ⟨2020, 1, 1, 10, 5, 0, 60⟩

/-- A well-formed Record element with one metadata child. -/
def demoRecordElem : XmlElem :=
  ⟨"Record",
   [("type", "T"), ("startDate", "2020-01-01 10:00:00 +0100"),
    ("endDate", "2020-01-01 10:05:00 +0100")],
   [⟨"MetadataEntry", [("key", "K"), ("value", "V")]⟩]⟩

/-- A well-formed ActivitySummary element with a fractional energy value. -/
def demoSummaryElem : XmlElem :=
  ⟨"ActivitySummary",
   [("dateComponents", "2020-01-01"), ("activeEnergyBurned", "500.7")], []⟩

/-- A well-formed Workout element with one metadata child. -/
def demoWorkoutElem : XmlElem :=
  ⟨"Workout",
   [("workoutActivityType", "W"), ("startDate", "2020-01-01 10:00:00 +0100"),
    ("endDate", "2020-01-01 10:05:00 +0100")],
   [⟨"MetadataEntry", [("key", "WK"), ("value", "WV")]⟩]⟩

/-- A small well-formed export document with one element of each kind. -/
def demoDoc : XmlDoc := [demoRecordElem, demoSummaryElem, demoWorkoutElem]

/-- The record extracted from demoRecordElem. -/
def demoRecord : Record := ⟨"T", dtA, dtB, none, none, none, none, none⟩

/-- The payload of demoRecord's stable hash. -/
def demoRecordHash : String :=
  "T|2020-01-01T10:00:00+01:00|2020-01-01T10:05:00+01:00|||||"

/-- The payload of the demo workout's stable hash. -/
def demoWorkoutHash : String :=
  "W|2020-01-01T10:00:00+01:00|2020-01-01T10:05:00+01:00||||||"

/-- The store contents after importing demoDoc into an empty store. -/
def demoStore : Store :=
  { health_record :=
      [⟨"T", "2020-01-01T10:00:00+01:00", "2020-01-01T10:05:00+01:00",
        none, none, none, none, none, demoRecordHash⟩],
    record_metadata := [(demoRecordHash, "K", "V")],
    activity_summary := [⟨"2020-01-01", some 500, none, none, none, none, none⟩],
    workout :=
      [⟨"W", "2020-01-01T10:00:00+01:00", "2020-01-01T10:05:00+01:00",
        none, none, none, none, none, none, demoWorkoutHash⟩],
    workout_metadata := [(demoWorkoutHash, "WK", "WV")] }

/-- A Record element whose required attributes are present but whose
startDate does not parse. -/
def badStartRecordElem : XmlElem :=
  ⟨"Record",
   [("type", "T"), ("startDate", "bad"), ("endDate", "2020-01-01 10:05:00 +0100")],
   []⟩

/-- Document with a malformed record followed by a well-formed one. -/
def c2doc : XmlDoc := [badStartRecordElem, demoRecordElem]

/-- Document whose records pass fails while its summaries pass alone would
succeed. -/
def c7doc : XmlDoc := [badStartRecordElem, demoSummaryElem]

/-- Record whose optional source_name is absent. -/
def c3recNone : Record := ⟨"T", dtA, dtB, none, none, none, none, none⟩

/-- Record identical to c3recNone except that source_name is present and
empty: the two differ in a hashed field. -/
def c3recEmpty : Record := ⟨"T", dtA, dtB, none, some "", none, none, none⟩

/-- Record element with a numeric value attribute. -/
def c5elemNum : XmlElem :=
  ⟨"Record",
   [("type", "T"), ("startDate", "2020-01-01 10:00:00 +0100"),
    ("endDate", "2020-01-01 10:05:00 +0100"), ("value", "42")],
   []⟩

/-- Record element with a non-numeric value attribute. -/
def c5elemStr : XmlElem :=
  ⟨"Record",
   [("type", "T"), ("startDate", "2020-01-01 10:00:00 +0100"),
    ("endDate", "2020-01-01 10:05:00 +0100"), ("value", "abc")],
   []⟩

/-- Record element missing startDate. -/
def missingStartRecordElem : XmlElem :=
  ⟨"Record", [("type", "T"), ("endDate", "2020-01-01 10:05:00 +0100")], []⟩

/-- Workout element missing its dates. -/
def missingDatesWorkoutElem : XmlElem :=
  ⟨"Workout", [("workoutActivityType", "W")], []⟩

/-- ActivitySummary element missing dateComponents. -/
def missingDaySummaryElem : XmlElem :=
  ⟨"ActivitySummary", [("activeEnergyBurned", "5")], []⟩

/-- Record element with one complete MetadataEntry child, one MetadataEntry
child missing its value, and one child of another tag. -/
def c10elem : XmlElem :=
  ⟨"Record",
   [("type", "T"), ("startDate", "2020-01-01 10:00:00 +0100"),
    ("endDate", "2020-01-01 10:05:00 +0100")],
   [⟨"MetadataEntry", [("key", "K"), ("value", "V")]⟩,
    ⟨"MetadataEntry", [("key", "K2")]⟩,
    ⟨"HeartRateVariabilityMetadataList", [("key", "X"), ("value", "Y")]⟩]⟩

/-- A MetadataEntry child carrying both a key and a value attribute; only
these children produce metadata entries. -/
def metaChildComplete (c : XmlChild) : Prop :=
  c.tag = "MetadataEntry" ∧ (∃ k, c.attrib.lookup "key" = some k) ∧
    (∃ v, c.attrib.lookup "value" = some v)

/-- A string not containing the payload separator. -/
def pipeFree (s : String) : Prop := '|' ∉ s.data

instance (s : String) : Decidable (pipeFree s) :=
  inferInstanceAs (Decidable ('|' ∉ s.data))

/-! # Theorems -/

/-! ## Zip candidate selection (claim C9) -/

theorem mem_insertByLen (x a : String) (l : List String) :
    a ∈ insertByLen x l ↔ a = x ∨ a ∈ l := by
  induction l with
  | nil => simp [insertByLen]
  | cons y ys ih =>
    by_cases h : x.length ≤ y.length
    · simp [insertByLen, h]
    · simp only [insertByLen, if_neg h, List.mem_cons, ih]
      tauto

theorem mem_sortByLen (a : String) (l : List String) : a ∈ sortByLen l ↔ a ∈ l := by
  induction l with
  | nil => simp [sortByLen]
  | cons y ys ih => simp [sortByLen, mem_insertByLen, ih]

theorem insertByLen_ne_nil (x : String) (l : List String) : insertByLen x l ≠ [] := by
  cases l with
  | nil => simp [insertByLen]
  | cons y ys =>
    unfold insertByLen
    split <;> simp

theorem sortByLen_eq_nil (l : List String) : sortByLen l = [] ↔ l = [] := by
  cases l with
  | nil => simp [sortByLen]
  | cons y ys =>
    simp only [sortByLen]
    exact ⟨fun h => absurd h (insertByLen_ne_nil _ _), fun h => by cases h⟩

theorem sortByLen_head_min :
    ∀ (l : List String) (x : String) (rest : List String),
      sortByLen l = x :: rest → x ∈ l ∧ ∀ y ∈ l, x.length ≤ y.length := by
  intro l
  induction l with
  | nil => intro x rest h; simp [sortByLen] at h
  | cons z zs ih =>
    intro x rest h
    rw [sortByLen] at h
    cases hs : sortByLen zs with
    | nil =>
      rw [hs] at h
      have hzs : zs = [] := (sortByLen_eq_nil zs).mp hs
      subst hzs
      simp only [insertByLen] at h
      obtain ⟨rfl, -⟩ := List.cons.inj h
      exact ⟨List.mem_singleton_self _, by intro y hy; rw [List.mem_singleton.mp hy]⟩
    | cons h0 t0 =>
      rw [hs] at h
      obtain ⟨hh, hmin⟩ := ih h0 t0 hs
      rw [insertByLen] at h
      by_cases hz : z.length ≤ h0.length
      · rw [if_pos hz] at h
        obtain ⟨rfl, -⟩ := List.cons.inj h
        refine ⟨List.mem_cons_self _ _, ?_⟩
        intro y hy
        rcases List.mem_cons.mp hy with rfl | hy'
        · exact le_refl _
        · exact le_trans hz (hmin y hy')
      · rw [if_neg hz] at h
        obtain ⟨rfl, -⟩ := List.cons.inj h
        refine ⟨List.mem_cons_of_mem _ hh, ?_⟩
        intro y hy
        rcases List.mem_cons.mp hy with rfl | hy'
        · omega
        · exact hmin y hy'

/-- Claim C9: an archive with at least one entry ending in export.xml
yields an extracted candidate of minimal path length among the
candidates; an archive with no such entry raises an error surfaced to the
caller. -/
theorem zip_export_selection (namelist : List String) :
    ((∃ n ∈ namelist, strEndsWith n "export.xml" = true) →
      ∃ chosen, extractExportXmlFromZip namelist = .ok chosen ∧ chosen ∈ namelist ∧
        strEndsWith chosen "export.xml" = true ∧
        ∀ m ∈ namelist, strEndsWith m "export.xml" = true → chosen.length ≤ m.length) ∧
    ((∀ n ∈ namelist, strEndsWith n "export.xml" = false) →
      extractExportXmlFromZip namelist = .error "No export.xml found in the zip.") := by
  constructor
  · rintro ⟨n, hn, he⟩
    have hmem : n ∈ namelist.filter (fun m => strEndsWith m "export.xml") :=
      List.mem_filter.mpr ⟨hn, he⟩
    cases hc : sortByLen (namelist.filter (fun m => strEndsWith m "export.xml")) with
    | nil =>
      exfalso
      rw [(sortByLen_eq_nil _).mp hc] at hmem
      cases hmem
    | cons x rest =>
      obtain ⟨hx, hmin⟩ := sortByLen_head_min _ x rest hc
      refine ⟨x, ?_, (List.mem_filter.mp hx).1, (List.mem_filter.mp hx).2, ?_⟩
      · simp only [extractExportXmlFromZip]
        rw [hc]
      · intro m hm hme
        exact hmin m (List.mem_filter.mpr ⟨hm, hme⟩)
  · intro h
    have hnil : namelist.filter (fun m => strEndsWith m "export.xml") = [] := by
      rw [List.filter_eq_nil_iff]
      intro a ha
      simp [h a ha]
    simp only [extractExportXmlFromZip]
    rw [hnil]
    rfl

theorem zip_export_selection_witness :
    extractExportXmlFromZip ["apple_health_export/export.xml", "export.xml", "other.txt"] =
      .ok "export.xml" ∧
    extractExportXmlFromZip ["a.txt"] = .error "No export.xml found in the zip." := by
  have h1 := (zip_export_selection
    ["apple_health_export/export.xml", "export.xml", "other.txt"]).1
      ⟨"export.xml", by decide, by decide⟩
  have h2 := (zip_export_selection ["a.txt"]).2 (by decide)
  exact ⟨by decide, h2⟩

/-! ## Malformed timestamps are raised, not skipped (claim C2) -/

/-- Claim C2 is false on the code: a Record element with its required
attributes present but an unparseable startDate makes the extractor raise
the ValueError to its caller, and the following well-formed Record (which
alone would be yielded) is not yielded. -/
theorem malformed_timestamp_counterexample :
    iterRecords c2doc = .error (.malformedTimestamp "bad") ∧
    iterRecords [demoRecordElem] =
      .ok [(demoRecord, [⟨demoRecordHash, "K", "V"⟩])] := by
  constructor <;> decide

/-- Claim C2 amended: for every Record element whose required attributes
are present (and truthy) but whose startDate does not parse, or whose
startDate parses and whose endDate does not, the extractor raises the
strptime ValueError to the caller of the iterator; iteration stops and no
subsequent element is yielded. -/
theorem record_extractor_raises_on_malformed_timestamp
    (e : XmlElem) (rest : XmlDoc) (ts ss es : String)
    (htag : e.tag = "Record")
    (hts : e.attrib.lookup "type" = some ts) (hts2 : ts.isEmpty = false)
    (hss : e.attrib.lookup "startDate" = some ss) (hss2 : ss.isEmpty = false)
    (hes : e.attrib.lookup "endDate" = some es) (hes2 : es.isEmpty = false)
    (hbad : parseAppleDatetime ss = none ∨
      ((∃ d, parseAppleDatetime ss = some d) ∧ parseAppleDatetime es = none)) :
    iterRecords (e :: rest) =
      .error (.malformedTimestamp (if parseAppleDatetime ss = none then ss else es)) := by
  have hrec : recordFromAttrib e.attrib =
      .error (.malformedTimestamp (if parseAppleDatetime ss = none then ss else es)) := by
    unfold recordFromAttrib
    rw [hts, hss, hes]
    dsimp only
    rw [hts2, hss2, hes2]
    simp only [Bool.or_self, Bool.false_or, Bool.or_false]
    rw [if_neg (by exact Bool.false_ne_true)]
    rcases hbad with hb | ⟨⟨d, hd⟩, hb⟩
    · rw [if_pos hb]
      unfold parseDtE
      rw [hb]
    · rw [if_neg (by rw [hd]; simp)]
      unfold parseDtE
      rw [hd, hb]
  unfold iterRecords extractRecordElem
  rw [htag, if_pos rfl, hrec]

theorem record_extractor_raises_witness :
    iterRecords c2doc = .error (.malformedTimestamp "bad") ∧
    parseAppleDatetime "bad" = none := by
  have h := record_extractor_raises_on_malformed_timestamp badStartRecordElem [demoRecordElem]
    "T" "bad" "2020-01-01 10:05:00 +0100" rfl rfl rfl rfl rfl rfl rfl
    (Or.inl (by decide))
  rw [if_pos (by decide)] at h
  exact ⟨h, by decide⟩

/-! ## Integer truncation of summary fields (claim C6) -/

/-- Claim C6 is false on the code as universally stated: the numeric
strings inf and nan are accepted by float(), yet int(float("inf")) raises
an OverflowError which the except ValueError clause does not catch, and
int(float("nan")) leaves the field unset instead of an integer. -/
theorem to_int_numeric_string_counterexample :
    pyFloatOfString "inf" = some PyFloat.inf ∧
    toIntModel (some "inf") = .error .overflowError ∧
    pyFloatOfString "nan" = some PyFloat.nan ∧
    toIntModel (some "nan") = .ok none := by
  refine ⟨by decide, by decide, by decide, by decide⟩

theorem doubleOverflowBound_eq : doubleOverflowBound = 2 ^ 1024 - 2 ^ 970 := by
  unfold doubleOverflowBound
  rw [Rat.mkRat_one]
  norm_num

theorem ratTrunc_eq_floor (q : ℚ) (h : 0 ≤ q) : ratTruncTowardZero q = ⌊q⌋ := by
  have hnum : 0 ≤ q.num := Rat.num_nonneg.mpr h
  unfold ratTruncTowardZero
  rw [Rat.floor_def]
  exact Int.tdiv_eq_ediv hnum (Int.ofNat_nonneg _)

theorem ratTrunc_eq_ceil (q : ℚ) (h : q ≤ 0) : ratTruncTowardZero q = ⌈q⌉ := by
  have hnum : q.num ≤ 0 := Rat.num_nonpos.mpr h
  unfold ratTruncTowardZero
  have h1 : q.num.tdiv q.den = -((-q.num).tdiv q.den) := by
    rw [Int.neg_tdiv, neg_neg]
  have h2 : (⌈q⌉ : Int) = -⌊-q⌋ := by rw [Int.floor_neg, neg_neg]
  rw [h1, Int.tdiv_eq_ediv (by omega) (Int.ofNat_nonneg _), h2]
  congr 1
  rw [Rat.floor_def]
  simp

/-- Claim C6 amended: each integer attribute goes through
int(float(value)) with only ValueError caught, therefore a string parsing
to a finite float is truncated toward zero (floor for nonnegative values,
ceiling for nonpositive ones; in particular 500.7 is stored as 500, not
rounded), a non-numeric string and nan leave the field unset without
raising, and an infinite numeric value raises an uncaught OverflowError
to the caller. -/
theorem to_int_truncates_amended :
    toIntModel none = .ok none ∧
    (∀ s, pyFloatOfString s = none → toIntModel (some s) = .ok none) ∧
    (∀ s, pyFloatOfString s = some .nan → toIntModel (some s) = .ok none) ∧
    (∀ s q, pyFloatOfString s = some (.finite q) →
      toIntModel (some s) = .ok (some (ratTruncTowardZero q)) ∧
      (0 ≤ q → ratTruncTowardZero q = ⌊q⌋) ∧
      (q ≤ 0 → ratTruncTowardZero q = ⌈q⌉)) ∧
    (∀ s, pyFloatOfString s = some .inf ∨ pyFloatOfString s = some .neginf →
      toIntModel (some s) = .error .overflowError) ∧
    toIntModel (some "500.7") = .ok (some 500) := by
  have hsome : ∀ s : String, toIntModel (some s) =
      match pyFloatOfString s with
      | none => .ok none
      | some (.finite q) => .ok (some (ratTruncTowardZero q))
      | some .nan => .ok none
      | some .inf => .error .overflowError
      | some .neginf => .error .overflowError := fun _ => rfl
  refine ⟨rfl, ?_, ?_, ?_, ?_, by decide⟩
  · intro s hs
    rw [hsome, hs]
  · intro s hs
    rw [hsome, hs]
  · intro s q hs
    refine ⟨?_, ratTrunc_eq_floor q, ratTrunc_eq_ceil q⟩
    rw [hsome, hs]
  · intro s hs
    rcases hs with hs | hs <;> rw [hsome, hs]

theorem to_int_truncates_witness :
    toIntModel (some "500.7") = .ok (some (ratTruncTowardZero (mkRat 5007 10))) ∧
    ratTruncTowardZero (mkRat 5007 10) = 500 ∧
    toIntModel (some "-500.7") = .ok (some (-500)) := by
  have h := (to_int_truncates_amended.2.2.2.1 "500.7" (mkRat 5007 10) (by decide)).1
  exact ⟨h, by decide, by decide⟩

/-! ## Inversion of the record extraction -/

theorem recordFromAttrib_skip (attrib : List (String × String))
    (h : attrib.lookup "type" = none ∨ attrib.lookup "startDate" = none ∨
      attrib.lookup "endDate" = none) :
    recordFromAttrib attrib = .ok none := by
  unfold recordFromAttrib
  cases h1 : attrib.lookup "type" with
  | none => cases h2 : attrib.lookup "startDate" <;> cases h3 : attrib.lookup "endDate" <;> rfl
  | some ts =>
    cases h2 : attrib.lookup "startDate" with
    | none => cases h3 : attrib.lookup "endDate" <;> rfl
    | some ss =>
      cases h3 : attrib.lookup "endDate" with
      | none => rfl
      | some es => rcases h with h | h | h <;> simp_all

theorem workoutFromAttrib_skip (attrib : List (String × String))
    (h : attrib.lookup "workoutActivityType" = none ∨ attrib.lookup "startDate" = none ∨
      attrib.lookup "endDate" = none) :
    workoutFromAttrib attrib = .ok none := by
  unfold workoutFromAttrib
  cases h1 : attrib.lookup "workoutActivityType" with
  | none => cases h2 : attrib.lookup "startDate" <;> cases h3 : attrib.lookup "endDate" <;> rfl
  | some wt =>
    cases h2 : attrib.lookup "startDate" with
    | none => cases h3 : attrib.lookup "endDate" <;> rfl
    | some ss =>
      cases h3 : attrib.lookup "endDate" with
      | none => rfl
      | some es => rcases h with h | h | h <;> simp_all

theorem summaryFromAttrib_skip (attrib : List (String × String))
    (h : attrib.lookup "dateComponents" = none) :
    summaryFromAttrib attrib = .ok none := by
  unfold summaryFromAttrib
  rw [h]

theorem iterRecords_cons_skip (e : XmlElem) (rest : XmlDoc)
    (h : extractRecordElem e = .ok none) :
    iterRecords (e :: rest) = iterRecords rest := by
  rw [iterRecords, h]

theorem iterWorkouts_cons_skip (e : XmlElem) (rest : XmlDoc)
    (h : extractWorkoutElem e = .ok none) :
    iterWorkouts (e :: rest) = iterWorkouts rest := by
  rw [iterWorkouts, h]

theorem iterSummaries_cons_skip (e : XmlElem) (rest : XmlDoc)
    (h : extractSummaryElem e = .ok none) :
    iterSummaries (e :: rest) = iterSummaries rest := by
  rw [iterSummaries, h]

/-- Inversion of a successful record construction: the accepted record's
optional fields are exactly the attribute lookups (so absent attributes
are unset), its value fields come from the float fallback, and its type is
the type attribute. -/
theorem recordFromAttrib_ok_some (attrib : List (String × String)) (r : Record)
    (h : recordFromAttrib attrib = .ok (some r)) :
    r.source_name = attrib.lookup "sourceName" ∧
    r.unit = attrib.lookup "unit" ∧
    r.value = toFloatModel (attrib.lookup "value") ∧
    r.value_str =
      (match toFloatModel (attrib.lookup "value") with
       | some _ => none
       | none => attrib.lookup "value") ∧
    (attrib.lookup "creationDate" = none → r.creation_at = none) ∧
    (∃ ts, attrib.lookup "type" = some ts ∧ r.record_type = ts) := by
  unfold recordFromAttrib at h
  cases h1 : attrib.lookup "type" with
  | none => rw [h1] at h; simp at h
  | some ts =>
    cases h2 : attrib.lookup "startDate" with
    | none => rw [h1, h2] at h; simp at h
    | some ss =>
      cases h3 : attrib.lookup "endDate" with
      | none => rw [h1, h2, h3] at h; simp at h
      | some es =>
        rw [h1, h2, h3] at h
        dsimp only at h
        split at h
        · simp at h
        · split at h
          · simp at h
          · split at h
            · simp at h
            · rename_i heqc
              split at h
              · simp at h
              · rename_i creationAt heq
                simp only [Except.ok.injEq, Option.some.injEq] at h
                subst h
                refine ⟨rfl, rfl, rfl, rfl, ?_, ⟨ts, rfl, rfl⟩⟩
                intro hc
                rw [hc] at heq
                simpa [creationFromAttrib] using heq.symm

/-- Inversion of one element's processing by the record extractor. -/
theorem extractRecordElem_ok_some (e : XmlElem) (r : Record) (ms : List RecordMetadata)
    (h : extractRecordElem e = .ok (some (r, ms))) :
    e.tag = "Record" ∧ recordFromAttrib e.attrib = .ok (some r) ∧
    ms = e.children.filterMap (recordMetaChild (stableRecordHash r)) := by
  unfold extractRecordElem at h
  split at h
  · rename_i htag
    cases hr : recordFromAttrib e.attrib with
    | error err => rw [hr] at h; simp at h
    | ok o =>
      cases o with
      | none => rw [hr] at h; simp at h
      | some r' =>
        rw [hr] at h
        simp only [Except.ok.injEq, Option.some.injEq, Prod.mk.injEq] at h
        obtain ⟨hr1, hms⟩ := h
        subst hr1
        exact ⟨htag, rfl, hms.symm⟩
  · simp at h

/-! ## Required attributes and silent skipping (claim C8) -/

/-- Claim C8: a Record element missing type, startDate or endDate (and a
Workout missing its analogous required attributes, an ActivitySummary
missing dateComponents) yields no entity and no error, contributes
nothing to the iterator's output (hence to any processed or imported
count); and on an accepted record the other attributes default to unset
when absent. -/
theorem missing_required_attributes_skip :
    (∀ (e : XmlElem) (rest : XmlDoc), e.tag = "Record" →
      (e.attrib.lookup "type" = none ∨ e.attrib.lookup "startDate" = none ∨
        e.attrib.lookup "endDate" = none) →
      extractRecordElem e = .ok none ∧ iterRecords (e :: rest) = iterRecords rest) ∧
    (∀ (e : XmlElem) (rest : XmlDoc), e.tag = "Workout" →
      (e.attrib.lookup "workoutActivityType" = none ∨ e.attrib.lookup "startDate" = none ∨
        e.attrib.lookup "endDate" = none) →
      extractWorkoutElem e = .ok none ∧ iterWorkouts (e :: rest) = iterWorkouts rest) ∧
    (∀ (e : XmlElem) (rest : XmlDoc), e.tag = "ActivitySummary" →
      e.attrib.lookup "dateComponents" = none →
      extractSummaryElem e = .ok none ∧ iterSummaries (e :: rest) = iterSummaries rest) ∧
    (∀ (e : XmlElem) (r : Record) (ms : List RecordMetadata),
      extractRecordElem e = .ok (some (r, ms)) →
      (e.attrib.lookup "sourceName" = none → r.source_name = none) ∧
      (e.attrib.lookup "unit" = none → r.unit = none) ∧
      (e.attrib.lookup "value" = none → r.value = none ∧ r.value_str = none) ∧
      (e.attrib.lookup "creationDate" = none → r.creation_at = none)) := by
  refine ⟨?_, ?_, ?_, ?_⟩
  · intro e rest htag hmiss
    have he : extractRecordElem e = .ok none := by
      unfold extractRecordElem
      rw [htag, if_pos rfl, recordFromAttrib_skip e.attrib hmiss]
    exact ⟨he, iterRecords_cons_skip e rest he⟩
  · intro e rest htag hmiss
    have he : extractWorkoutElem e = .ok none := by
      unfold extractWorkoutElem
      rw [htag, if_pos rfl, workoutFromAttrib_skip e.attrib hmiss]
    exact ⟨he, iterWorkouts_cons_skip e rest he⟩
  · intro e rest htag hmiss
    have he : extractSummaryElem e = .ok none := by
      unfold extractSummaryElem
      rw [htag, if_pos rfl, summaryFromAttrib_skip e.attrib hmiss]
    exact ⟨he, iterSummaries_cons_skip e rest he⟩
  · intro e r ms h
    obtain ⟨-, hattr, -⟩ := extractRecordElem_ok_some e r ms h
    obtain ⟨hsn, hu, hv, hvs, hcr, -⟩ := recordFromAttrib_ok_some e.attrib r hattr
    refine ⟨?_, ?_, ?_, hcr⟩
    · intro hc; rw [hsn, hc]
    · intro hc; rw [hu, hc]
    · intro hc
      rw [hv, hvs, hc]
      exact ⟨rfl, rfl⟩

theorem missing_required_attributes_witness :
    extractRecordElem missingStartRecordElem = .ok none ∧
    iterRecords [missingStartRecordElem] = .ok [] ∧
    extractWorkoutElem missingDatesWorkoutElem = .ok none ∧
    extractSummaryElem missingDaySummaryElem = .ok none ∧
    demoRecord.source_name = none ∧ demoRecord.creation_at = none := by
  have h1 := missing_required_attributes_skip.1 missingStartRecordElem [] rfl
    (Or.inr (Or.inl rfl))
  have h2 := missing_required_attributes_skip.2.1 missingDatesWorkoutElem [] rfl
    (Or.inr (Or.inl rfl))
  have h3 := missing_required_attributes_skip.2.2.1 missingDaySummaryElem [] rfl rfl
  have h4 := missing_required_attributes_skip.2.2.2 demoRecordElem demoRecord
    [⟨demoRecordHash, "K", "V"⟩] (by decide)
  exact ⟨h1.1, by rw [h1.2]; rfl, h2.1, h3.1, h4.1 rfl, h4.2.2.2 rfl⟩

/-! ## Value and value_str are mutually exclusive (claim C5) -/

/-- Claim C5: on every accepted Record element, an absent value attribute
leaves both value fields unset; a float-parseable value populates value
only; any other value string populates value_str only; value and
value_str are never both populated. -/
theorem record_value_exclusive (e : XmlElem) (r : Record) (ms : List RecordMetadata)
    (h : extractRecordElem e = .ok (some (r, ms))) :
    (e.attrib.lookup "value" = none → r.value = none ∧ r.value_str = none) ∧
    (∀ s, e.attrib.lookup "value" = some s →
      (∀ f, pyFloatOfString s = some f → r.value = some f ∧ r.value_str = none) ∧
      (pyFloatOfString s = none → r.value = none ∧ r.value_str = some s)) ∧
    ¬(r.value ≠ none ∧ r.value_str ≠ none) := by
  obtain ⟨-, hattr, -⟩ := extractRecordElem_ok_some e r ms h
  obtain ⟨-, -, hv, hvs, -, -⟩ := recordFromAttrib_ok_some e.attrib r hattr
  refine ⟨?_, ?_, ?_⟩
  · intro hc
    rw [hv, hvs, hc]
    exact ⟨rfl, rfl⟩
  · intro s hs
    constructor
    · intro f hf
      rw [hv, hvs, hs]
      simp only [toFloatModel]
      rw [hf]
      exact ⟨rfl, rfl⟩
    · intro hf
      rw [hv, hvs, hs]
      simp only [toFloatModel]
      rw [hf]
      exact ⟨rfl, rfl⟩
  · rintro ⟨hvne, hvsne⟩
    rw [hvs] at hvsne
    rw [hv] at hvne
    cases hm : toFloatModel (e.attrib.lookup "value") with
    | none => exact hvne hm
    | some f => rw [hm] at hvsne; exact hvsne rfl

theorem record_value_exclusive_witness :
    extractRecordElem c5elemNum =
      .ok (some (⟨"T", dtA, dtB, none, none, none, some (.finite (mkRat 42 1)), none⟩, [])) ∧
    extractRecordElem c5elemStr =
      .ok (some (⟨"T", dtA, dtB, none, none, none, none, some "abc"⟩, [])) ∧
    (⟨"T", dtA, dtB, none, none, none, some (.finite (mkRat 42 1)), none⟩ : Record).value =
      some (.finite (mkRat 42 1)) ∧
    (⟨"T", dtA, dtB, none, none, none, none, some "abc"⟩ : Record).value_str = some "abc" := by
  have h1 := ((record_value_exclusive c5elemNum
    ⟨"T", dtA, dtB, none, none, none, some (.finite (mkRat 42 1)), none⟩ [] (by decide)).2.1
      "42" rfl).1 (.finite (mkRat 42 1)) (by decide)
  have h2 := ((record_value_exclusive c5elemStr
    ⟨"T", dtA, dtB, none, none, none, none, some "abc"⟩ [] (by decide)).2.1
      "abc" rfl).2 (by decide)
  exact ⟨by decide, by decide, h1.1, h2.2⟩

/-! ## Metadata children (claim C10) -/

theorem recordMetaChild_none (hsh : String) (c : XmlChild) (h : ¬metaChildComplete c) :
    recordMetaChild hsh c = none := by
  unfold recordMetaChild
  by_cases ht : c.tag = "MetadataEntry"
  · rw [if_pos ht]
    cases hk : c.attrib.lookup "key" with
    | none => cases hv : c.attrib.lookup "value" <;> rfl
    | some k =>
      cases hv : c.attrib.lookup "value" with
      | none => rfl
      | some v => exact absurd ⟨ht, ⟨k, hk⟩, ⟨v, hv⟩⟩ h
  · rw [if_neg ht]

theorem recordMetaChild_hash (hsh : String) (c : XmlChild) (m : RecordMetadata)
    (h : recordMetaChild hsh c = some m) : m.record_hash = hsh := by
  unfold recordMetaChild at h
  split at h
  · cases hk : c.attrib.lookup "key" with
    | none => rw [hk] at h; cases hv : c.attrib.lookup "value" <;> rw [hv] at h <;> cases h
    | some k =>
      cases hv : c.attrib.lookup "value" with
      | none => rw [hk, hv] at h; cases h
      | some v =>
        rw [hk, hv] at h
        obtain rfl := Option.some.inj h
        rfl
  · cases h

theorem workoutMetaChild_hash (hsh : String) (c : XmlChild) (m : WorkoutMetadata)
    (h : workoutMetaChild hsh c = some m) : m.workout_hash = hsh := by
  unfold workoutMetaChild at h
  split at h
  · cases hk : c.attrib.lookup "key" with
    | none => rw [hk] at h; cases hv : c.attrib.lookup "value" <;> rw [hv] at h <;> cases h
    | some k =>
      cases hv : c.attrib.lookup "value" with
      | none => rw [hk, hv] at h; cases h
      | some v =>
        rw [hk, hv] at h
        obtain rfl := Option.some.inj h
        rfl
  · cases h

/-- Inversion of one element's processing by the workout extractor. -/
theorem extractWorkoutElem_ok_some (e : XmlElem) (w : Workout) (ms : List WorkoutMetadata)
    (h : extractWorkoutElem e = .ok (some (w, ms))) :
    e.tag = "Workout" ∧ workoutFromAttrib e.attrib = .ok (some w) ∧
    ms = e.children.filterMap (workoutMetaChild (stableWorkoutHash w)) := by
  unfold extractWorkoutElem at h
  split at h
  · rename_i htag
    cases hr : workoutFromAttrib e.attrib with
    | error err => rw [hr] at h; simp at h
    | ok o =>
      cases o with
      | none => rw [hr] at h; simp at h
      | some w' =>
        rw [hr] at h
        simp only [Except.ok.injEq, Option.some.injEq, Prod.mk.injEq] at h
        obtain ⟨hw1, hms⟩ := h
        subst hw1
        exact ⟨htag, rfl, hms.symm⟩
  · simp at h

/-- Claim C10: on every accepted Record element, each complete
MetadataEntry child yields exactly one metadata entry carrying the
parent's hash, in document order (the filterMap over the child list); a
MetadataEntry missing key or value, or a child of another tag, is dropped
silently without affecting the parent record or its other metadata
entries; the Workout extractor behaves analogously. -/
theorem metadata_children_extraction :
    (∀ (e : XmlElem) (r : Record) (ms : List RecordMetadata),
      extractRecordElem e = .ok (some (r, ms)) →
      ms = e.children.filterMap (recordMetaChild (stableRecordHash r)) ∧
      (∀ m ∈ ms, m.record_hash = stableRecordHash r) ∧
      (∀ c ∈ e.children, ∀ k v,
        c.tag = "MetadataEntry" → c.attrib.lookup "key" = some k →
        c.attrib.lookup "value" = some v →
        (⟨stableRecordHash r, k, v⟩ : RecordMetadata) ∈ ms)) ∧
    (∀ tag attrib pre (c : XmlChild) post (r : Record) ms r' ms',
      ¬metaChildComplete c →
      extractRecordElem ⟨tag, attrib, pre ++ c :: post⟩ = .ok (some (r, ms)) →
      extractRecordElem ⟨tag, attrib, pre ++ post⟩ = .ok (some (r', ms')) →
      r = r' ∧ ms = ms') ∧
    (∀ (e : XmlElem) (w : Workout) (ms : List WorkoutMetadata),
      extractWorkoutElem e = .ok (some (w, ms)) →
      ms = e.children.filterMap (workoutMetaChild (stableWorkoutHash w)) ∧
      ∀ m ∈ ms, m.workout_hash = stableWorkoutHash w) := by
  refine ⟨?_, ?_, ?_⟩
  · intro e r ms h
    obtain ⟨-, -, hms⟩ := extractRecordElem_ok_some e r ms h
    refine ⟨hms, ?_, ?_⟩
    · intro m hm
      rw [hms] at hm
      obtain ⟨c, -, hc⟩ := List.mem_filterMap.mp hm
      exact recordMetaChild_hash _ c m hc
    · intro c hc k v ht hk hv
      rw [hms]
      refine List.mem_filterMap.mpr ⟨c, hc, ?_⟩
      unfold recordMetaChild
      rw [if_pos ht, hk, hv]
  · intro tag attrib pre c post r ms r' ms' hinc h h'
    obtain ⟨-, ha, hms⟩ := extractRecordElem_ok_some _ r ms h
    obtain ⟨-, ha', hms'⟩ := extractRecordElem_ok_some _ r' ms' h'
    rw [ha] at ha'
    obtain rfl : r = r' := by simpa using ha'
    refine ⟨rfl, ?_⟩
    rw [hms, hms']
    show (pre ++ c :: post).filterMap _ = _
    rw [List.filterMap_append, List.filterMap_append, List.filterMap_cons,
      recordMetaChild_none _ c hinc]
  · intro e w ms h
    obtain ⟨-, -, hms⟩ := extractWorkoutElem_ok_some e w ms h
    refine ⟨hms, ?_⟩
    intro m hm
    rw [hms] at hm
    obtain ⟨c, -, hc⟩ := List.mem_filterMap.mp hm
    exact workoutMetaChild_hash _ c m hc

theorem metadata_children_witness :
    extractRecordElem c10elem = .ok (some (demoRecord, [⟨demoRecordHash, "K", "V"⟩])) ∧
    (⟨demoRecordHash, "K", "V"⟩ : RecordMetadata).record_hash = stableRecordHash demoRecord ∧
    extractRecordElem ⟨"Record", c10elem.attrib,
      [⟨"MetadataEntry", [("key", "K"), ("value", "V")]⟩,
       ⟨"HeartRateVariabilityMetadataList", [("key", "X"), ("value", "Y")]⟩]⟩ =
      .ok (some (demoRecord, [⟨demoRecordHash, "K", "V"⟩])) := by
  have h1 := (metadata_children_extraction.1 c10elem demoRecord
    [⟨demoRecordHash, "K", "V"⟩] (by decide)).2.1 ⟨demoRecordHash, "K", "V"⟩
    (List.mem_singleton_self _)
  have h2 := metadata_children_extraction.2.1 "Record" c10elem.attrib
    [⟨"MetadataEntry", [("key", "K"), ("value", "V")]⟩]
    (⟨"MetadataEntry", [("key", "K2")]⟩ : XmlChild)
    [⟨"HeartRateVariabilityMetadataList", [("key", "X"), ("value", "Y")]⟩]
    demoRecord [⟨demoRecordHash, "K", "V"⟩] demoRecord [⟨demoRecordHash, "K", "V"⟩]
    (by rintro ⟨-, -, ⟨v, hv⟩⟩; exact Option.noConfusion hv)
    (by decide) (by decide)
  exact ⟨by decide, h1, by decide⟩

/-! ## Stable hash determinism and payload injectivity (claim C3) -/

theorem append_pipe_inj :
    ∀ (a b x y : List Char), '|' ∉ a → '|' ∉ b → a ++ '|' :: x = b ++ '|' :: y →
      a = b ∧ x = y := by
  intro a
  induction a with
  | nil =>
    intro b x y _ hb h
    cases b with
    | nil => simpa using h
    | cons d ds =>
      simp only [List.nil_append, List.cons_append] at h
      obtain ⟨h1, -⟩ := List.cons.inj h
      rw [← h1] at hb
      simp at hb
  | cons c cs ih =>
    intro b x y ha hb h
    cases b with
    | nil =>
      simp only [List.cons_append, List.nil_append] at h
      obtain ⟨h1, -⟩ := List.cons.inj h
      rw [h1] at ha
      simp at ha
    | cons d ds =>
      simp only [List.cons_append] at h
      obtain ⟨h1, h2⟩ := List.cons.inj h
      subst h1
      have ha' : '|' ∉ cs := fun hm => ha (List.mem_cons_of_mem _ hm)
      have hb' : '|' ∉ ds := fun hm => hb (List.mem_cons_of_mem _ hm)
      obtain ⟨e1, e2⟩ := ih ds x y ha' hb' h2
      exact ⟨by rw [e1], e2⟩

theorem string_pipe_append_inj (s t u v : String)
    (hs : pipeFree s) (ht : pipeFree t)
    (h : s ++ "|" ++ u = t ++ "|" ++ v) : s = t ∧ u = v := by
  have hpd : ("|" : String).data = ['|'] := rfl
  have hd : s.data ++ '|' :: u.data = t.data ++ '|' :: v.data := by
    have h0 := congrArg String.data h
    simpa [String.data_append, hpd] using h0
  obtain ⟨h1, h2⟩ := append_pipe_inj _ _ _ _ hs ht hd
  exact ⟨String.ext h1, String.ext h2⟩

theorem pipeJoin_cons₂ (x y : String) (t : List String) :
    pipeJoin (x :: y :: t) = x ++ "|" ++ pipeJoin (y :: t) := rfl

theorem pipeJoin_inj :
    ∀ (l₁ l₂ : List String), l₁.length = l₂.length →
      (∀ f ∈ l₁, pipeFree f) → (∀ f ∈ l₂, pipeFree f) →
      pipeJoin l₁ = pipeJoin l₂ → l₁ = l₂ := by
  intro l₁
  induction l₁ with
  | nil =>
    intro l₂ hlen _ _ _
    cases l₂ with
    | nil => rfl
    | cons y ys => simp at hlen
  | cons x xs ih =>
    intro l₂ hlen h1 h2 hj
    cases l₂ with
    | nil => simp at hlen
    | cons y ys =>
      cases xs with
      | nil =>
        cases ys with
        | nil => simpa [pipeJoin] using hj
        | cons y2 yt => simp at hlen
      | cons x2 xt =>
        cases ys with
        | nil => simp at hlen
        | cons y2 yt =>
          rw [pipeJoin_cons₂, pipeJoin_cons₂] at hj
          obtain ⟨e1, e2⟩ := string_pipe_append_inj x y _ _
            (h1 x (List.mem_cons_self _ _)) (h2 y (List.mem_cons_self _ _)) hj
          have e3 := ih (y2 :: yt) (by simpa using hlen)
            (fun f hf => h1 f (List.mem_cons_of_mem _ hf))
            (fun f hf => h2 f (List.mem_cons_of_mem _ hf)) e2
          rw [e1, e3]

/-- Claim C3 is false as stated: the records c3recNone and c3recEmpty
differ in the hashed field source_name (absent versus present and empty),
yet their pipe-joined payloads are character-for-character identical, so
their SHA-256 digests are certainly equal. -/
theorem stable_hash_counterexample :
    c3recNone ≠ c3recEmpty ∧ c3recNone.source_name ≠ c3recEmpty.source_name ∧
    stableRecordHash c3recNone = stableRecordHash c3recEmpty := by
  refine ⟨by decide, by decide, by decide⟩

/-- Claim C3 amended: the stable hash is a deterministic function of the
record alone — extraction from the same attributes yields the same record
and the same hash whatever the element's metadata children are — and on
records whose rendered fields contain no separator the payload determines
the rendered field tuple.  The payload is not injective over the records
themselves: absent and present-but-empty optional string fields render
identically (see the counterexample). -/
theorem stable_hash_amended :
    (∀ tag attrib cs cs' (r : Record) ms r' ms',
      extractRecordElem ⟨tag, attrib, cs⟩ = .ok (some (r, ms)) →
      extractRecordElem ⟨tag, attrib, cs'⟩ = .ok (some (r', ms')) →
      r = r' ∧ stableRecordHash r = stableRecordHash r') ∧
    (∀ r₁ r₂ : Record, (∀ f ∈ renderedRecordFields r₁, pipeFree f) →
      (∀ f ∈ renderedRecordFields r₂, pipeFree f) →
      stableRecordHash r₁ = stableRecordHash r₂ →
      renderedRecordFields r₁ = renderedRecordFields r₂) := by
  constructor
  · intro tag attrib cs cs' r ms r' ms' h h'
    obtain ⟨-, ha, -⟩ := extractRecordElem_ok_some _ r ms h
    obtain ⟨-, ha', -⟩ := extractRecordElem_ok_some _ r' ms' h'
    rw [ha] at ha'
    obtain rfl : r = r' := by simpa using ha'
    exact ⟨rfl, rfl⟩
  · intro r₁ r₂ h1 h2 hh
    exact pipeJoin_inj _ _ rfl h1 h2 hh

theorem stable_hash_amended_witness :
    stableRecordHash demoRecord = stableRecordHash demoRecord ∧
    renderedRecordFields c3recNone = renderedRecordFields c3recEmpty := by
  have h1 := (stable_hash_amended.1 "Record" demoRecordElem.attrib demoRecordElem.children
    [] demoRecord [⟨demoRecordHash, "K", "V"⟩] demoRecord [] (by decide) (by decide)).2
  have h2 := stable_hash_amended.2 c3recNone c3recEmpty (by decide) (by decide) (by decide)
  exact ⟨h1, h2⟩

/-! ## Insert-or-ignore upserts and import idempotence (claims C1, C7) -/

theorem hasKey_append {α κ : Type} [DecidableEq κ] (key : α → κ) (a b : List α) (k : κ) :
    hasKey key (a ++ b) k = (hasKey key a k || hasKey key b k) := by
  simp [hasKey, List.any_append]

theorem hasKey_self_append {α κ : Type} [DecidableEq κ] (key : α → κ)
    (tbl : List α) (x : α) : hasKey key (tbl ++ [x]) (key x) = true := by
  rw [hasKey_append]
  have : hasKey key [x] (key x) = true := by simp [hasKey]
  rw [this, Bool.or_true]

theorem upsert_preserves {α κ : Type} [DecidableEq κ] (key : α → κ) (k : κ) :
    ∀ (xs tbl : List α), hasKey key tbl k = true →
      hasKey key (upsertByKey key tbl xs).1 k = true := by
  intro xs
  induction xs with
  | nil => intro tbl h; simpa [upsertByKey] using h
  | cons y ys ih =>
    intro tbl h
    unfold upsertByKey
    by_cases hy : hasKey key tbl (key y) = true
    · rw [if_pos hy]; exact ih tbl h
    · rw [if_neg hy]
      dsimp only
      exact ih (tbl ++ [y]) (by rw [hasKey_append, h, Bool.true_or])

theorem upsert_absorbs {α κ : Type} [DecidableEq κ] (key : α → κ) :
    ∀ (xs tbl : List α) (x : α), x ∈ xs →
      hasKey key (upsertByKey key tbl xs).1 (key x) = true := by
  intro xs
  induction xs with
  | nil => intro tbl x hx; cases hx
  | cons y ys ih =>
    intro tbl x hx
    unfold upsertByKey
    by_cases hy : hasKey key tbl (key y) = true
    · rw [if_pos hy]
      rcases List.mem_cons.mp hx with rfl | hx'
      · exact upsert_preserves key (key x) ys tbl hy
      · exact ih tbl x hx'
    · rw [if_neg hy]
      dsimp only
      rcases List.mem_cons.mp hx with rfl | hx'
      · exact upsert_preserves key (key x) ys (tbl ++ [x]) (hasKey_self_append key tbl x)
      · exact ih (tbl ++ [y]) x hx'

theorem upsert_noop {α κ : Type} [DecidableEq κ] (key : α → κ) :
    ∀ (xs tbl : List α), (∀ x ∈ xs, hasKey key tbl (key x) = true) →
      upsertByKey key tbl xs = (tbl, 0) := by
  intro xs
  induction xs with
  | nil => intro tbl _; rfl
  | cons y ys ih =>
    intro tbl h
    unfold upsertByKey
    rw [if_pos (h y (List.mem_cons_self _ _))]
    exact ih tbl (fun x hx => h x (List.mem_cons_of_mem _ hx))

/-- Claim C1: importing the same source document twice into the same store
leaves the second run's store contents identical to the first run's, and
the second run's returned inserted counts (records, record metadata,
activity summaries, workouts, workout metadata) are all zero. -/
theorem import_idempotent (doc : XmlDoc) (s₀ s₁ : Store) (c₁ : ImportCounts)
    (h : importAll doc s₀ = .ok (s₁, c₁)) :
    importAll doc s₁ = .ok (s₁, zeroCounts) := by
  unfold importAll at h ⊢
  cases hr : iterRecords doc with
  | error e => rw [hr] at h; simp at h
  | ok recs =>
    rw [hr] at h
    dsimp only at h ⊢
    cases hs : iterSummaries doc with
    | error e => rw [hs] at h; simp at h
    | ok sums =>
      rw [hs] at h
      dsimp only at h ⊢
      cases hw : iterWorkouts doc with
      | error e => rw [hw] at h; simp at h
      | ok wos =>
        rw [hw] at h
        dsimp only at h ⊢
        simp only [Except.ok.injEq, Prod.mk.injEq] at h
        obtain ⟨hS, -⟩ := h
        subst hS
        dsimp only
        rw [upsert_noop HealthRecordRow.record_hash _ _
          (fun x hx => upsert_absorbs _ _ s₀.health_record x hx)]
        rw [upsert_noop id _ _
          (fun x hx => upsert_absorbs _ _ s₀.record_metadata x hx)]
        rw [upsert_noop SummaryRow.day _ _
          (fun x hx => upsert_absorbs _ _ s₀.activity_summary x hx)]
        rw [upsert_noop WorkoutRow.workout_hash _ _
          (fun x hx => upsert_absorbs _ _ s₀.workout x hx)]
        rw [upsert_noop id _ _
          (fun x hx => upsert_absorbs _ _ s₀.workout_metadata x hx)]
        rfl

theorem import_idempotent_witness :
    importAll demoDoc emptyStore = .ok (demoStore, ⟨1, 1, 1, 1, 1⟩) ∧
    importAll demoDoc demoStore = .ok (demoStore, zeroCounts) :=
  ⟨by decide, import_idempotent demoDoc emptyStore demoStore ⟨1, 1, 1, 1, 1⟩ (by decide)⟩

/-! ## The three passes are sequential, not independent (claim C7) -/

/-- Claim C7 is false on the code: in c7doc the records pass fails on a
malformed timestamp while the activity-summary pass alone would succeed,
yet the import propagates the records-pass error and never reaches the
other passes — no summary is imported. -/
theorem import_passes_counterexample :
    iterRecords c7doc = .error (.malformedTimestamp "bad") ∧
    iterSummaries c7doc = .ok [⟨⟨2020, 1, 1⟩, some 500, none, none, none, none, none⟩] ∧
    importAll c7doc emptyStore = .error (.malformedTimestamp "bad") := by
  refine ⟨by decide, by decide, by decide⟩

/-- Claim C7 amended: the three passes run sequentially and are not
independent — an exception escaping the records pass propagates to the
caller and the summary and workout passes never run; likewise an
exception escaping the summary pass prevents the workout pass. -/
theorem import_passes_sequential_abort :
    (∀ (doc : XmlDoc) (s : Store) (err : ExtractError),
      iterRecords doc = .error err → importAll doc s = .error err) ∧
    (∀ (doc : XmlDoc) (s : Store) (err : ExtractError) recs,
      iterRecords doc = .ok recs → iterSummaries doc = .error err →
      importAll doc s = .error err) := by
  constructor
  · intro doc s err h
    unfold importAll
    rw [h]
  · intro doc s err recs h1 h2
    unfold importAll
    rw [h1]
    dsimp only
    rw [h2]

theorem import_passes_sequential_abort_witness :
    importAll c7doc emptyStore = .error (.malformedTimestamp "bad") :=
  import_passes_sequential_abort.1 c7doc emptyStore _ (by decide)

/-! ## Timestamp round-trip (claim C4) -/

theorem digitVal?_digitChar (k : Nat) (h : k < 10) : digitVal? (Nat.digitChar k) = some k := by
  interval_cases k <;> rfl

theorem takeDigits_succ (k acc : Nat) (c : Char) (cs : List Char) :
    takeDigits (k + 1) acc (c :: cs) =
      match digitVal? c with
      | some v => takeDigits k (acc * 10 + v) cs
      | none => none := rfl

theorem takeDigits_pad2 (n : Nat) (h : n < 100) (r : List Char) :
    takeDigits 2 0 (pad2 n ++ r) = some (n, r) := by
  have h1 : n / 10 < 10 := by omega
  have h2 : n % 10 < 10 := by omega
  show takeDigits 2 0 (Nat.digitChar (n / 10) :: Nat.digitChar (n % 10) :: r) = _
  rw [takeDigits_succ, digitVal?_digitChar _ h1]
  show takeDigits 1 (0 * 10 + n / 10) (Nat.digitChar (n % 10) :: r) = _
  rw [takeDigits_succ, digitVal?_digitChar _ h2]
  show some ((0 * 10 + n / 10) * 10 + n % 10, r) = _
  have e : (0 * 10 + n / 10) * 10 + n % 10 = n := by omega
  rw [e]

theorem takeDigits_pad4 (n : Nat) (h : n < 10000) (r : List Char) :
    takeDigits 4 0 (pad4 n ++ r) = some (n, r) := by
  have h1 : n / 1000 < 10 := by omega
  have h2 : n / 100 % 10 < 10 := by omega
  have h3 : n / 10 % 10 < 10 := by omega
  have h4 : n % 10 < 10 := by omega
  show takeDigits 4 0 (Nat.digitChar (n / 1000) :: Nat.digitChar (n / 100 % 10) ::
    Nat.digitChar (n / 10 % 10) :: Nat.digitChar (n % 10) :: r) = _
  rw [takeDigits_succ, digitVal?_digitChar _ h1]
  show takeDigits 3 (0 * 10 + n / 1000) _ = _
  rw [takeDigits_succ, digitVal?_digitChar _ h2]
  show takeDigits 2 ((0 * 10 + n / 1000) * 10 + n / 100 % 10) _ = _
  rw [takeDigits_succ, digitVal?_digitChar _ h3]
  show takeDigits 1 (((0 * 10 + n / 1000) * 10 + n / 100 % 10) * 10 + n / 10 % 10) _ = _
  rw [takeDigits_succ, digitVal?_digitChar _ h4]
  show some ((((0 * 10 + n / 1000) * 10 + n / 100 % 10) * 10 + n / 10 % 10) * 10 + n % 10, r) = _
  have e : (((0 * 10 + n / 1000) * 10 + n / 100 % 10) * 10 + n / 10 % 10) * 10 + n % 10 = n := by
    omega
  rw [e]

theorem expectChar_cons (c : Char) (r : List Char) : expectChar c (c :: r) = some r := by
  simp [expectChar]

theorem parseIsoOffsetMag_pads (sgn : Int) (hh mm : Nat) (hh2 : hh < 100) (mm2 : mm < 100) :
    parseIsoOffsetMag sgn (pad2 hh ++ ':' :: pad2 mm) =
      some (sgn * (hh * 60 + mm), []) := by
  unfold parseIsoOffsetMag
  simp only [Option.bind_eq_bind]
  rw [takeDigits_pad2 hh hh2]
  simp only [Option.some_bind]
  rw [expectChar_cons]
  simp only [Option.some_bind]
  rw [show pad2 mm = pad2 mm ++ ([] : List Char) from (List.append_nil _).symm]
  rw [takeDigits_pad2 mm mm2]
  simp only [Option.some_bind]

theorem parseIsoOffset_offsetChars (off : Int) (hlo : -1440 < off) (hhi : off < 1440) :
    parseIsoOffset (offsetChars off) = some (off, []) := by
  have hdiv : off.natAbs / 60 < 100 := by omega
  have hmod : off.natAbs % 60 < 100 := by omega
  by_cases hneg : off < 0
  · have hshape : offsetChars off =
        '-' :: (pad2 (off.natAbs / 60) ++ ':' :: pad2 (off.natAbs % 60)) := by
      unfold offsetChars
      rw [if_pos hneg]
    rw [hshape]
    show parseIsoOffsetMag (-1) (pad2 (off.natAbs / 60) ++ ':' :: pad2 (off.natAbs % 60)) = _
    rw [parseIsoOffsetMag_pads _ _ _ hdiv hmod]
    have heq : (-1 : Int) * (((off.natAbs / 60 : ℕ) : ℤ) * 60 + ((off.natAbs % 60 : ℕ) : ℤ)) =
        off := by omega
    rw [heq]
  · have hshape : offsetChars off =
        '+' :: (pad2 (off.natAbs / 60) ++ ':' :: pad2 (off.natAbs % 60)) := by
      unfold offsetChars
      rw [if_neg hneg]
    rw [hshape]
    show parseIsoOffsetMag 1 (pad2 (off.natAbs / 60) ++ ':' :: pad2 (off.natAbs % 60)) = _
    rw [parseIsoOffsetMag_pads _ _ _ hdiv hmod]
    have heq : (1 : Int) * (((off.natAbs / 60 : ℕ) : ℤ) * 60 + ((off.natAbs % 60 : ℕ) : ℤ)) =
        off := by omega
    rw [heq]

theorem daysInMonth_le (y m : Nat) : daysInMonth y m ≤ 31 := by
  unfold daysInMonth
  split
  · split <;> omega
  · split <;> omega

theorem validDt_bounds (d : PyDatetime) (h : validDt d = true) :
    1 ≤ d.year ∧ d.year ≤ 9999 ∧ 1 ≤ d.month ∧ d.month ≤ 12 ∧ 1 ≤ d.day ∧
    d.day ≤ daysInMonth d.year d.month ∧ d.hour ≤ 23 ∧ d.minute ≤ 59 ∧ d.second ≤ 59 ∧
    -1440 < d.tzOffsetMinutes ∧ d.tzOffsetMinutes < 1440 := by
  unfold validDt at h
  exact of_decide_eq_true h

theorem mkValidDt_inv (y mo dd hh mi s : Nat) (off : Int) (d : PyDatetime)
    (h : mkValidDt y mo dd hh mi s off = some d) :
    d = ⟨y, mo, dd, hh, mi, s, off⟩ ∧ validDt d = true := by
  unfold mkValidDt at h
  dsimp only at h
  split at h
  · rename_i hv
    obtain rfl := Option.some.inj h
    exact ⟨rfl, hv⟩
  · cases h

theorem parseAppleDatetime_valid (s : String) (d : PyDatetime)
    (h : parseAppleDatetime s = some d) : validDt d = true := by
  unfold parseAppleDatetime at h
  simp only [Option.bind_eq_bind, Option.bind_eq_some] at h
  obtain ⟨py, -, r1, -, pmo, -, r2, -, pdd, -, r3, -, ph, -, r4, -, pmi, -,
    r5, -, psec, -, r6, -, poff, -, hfin⟩ := h
  split at hfin
  · exact (mkValidDt_inv _ _ _ _ _ _ _ _ hfin).2
  · cases hfin

theorem validDt_roundtrip (d : PyDatetime) (h : validDt d = true) :
    parseIsoDatetime (dtToIso d) = some d := by
  obtain ⟨h1, h2, h3, h4, h5, h6, h7, h8, h9, h10, h11⟩ := validDt_bounds d h
  have hday : d.day < 100 := lt_of_le_of_lt (le_trans h6 (daysInMonth_le _ _)) (by omega)
  unfold parseIsoDatetime dtToIso
  simp only [Option.bind_eq_bind]
  unfold isoChars
  rw [takeDigits_pad4 d.year (by omega)]
  simp only [Option.some_bind]
  rw [expectChar_cons]
  simp only [Option.some_bind]
  rw [takeDigits_pad2 d.month (by omega)]
  simp only [Option.some_bind]
  rw [expectChar_cons]
  simp only [Option.some_bind]
  rw [takeDigits_pad2 d.day hday]
  simp only [Option.some_bind]
  rw [expectChar_cons]
  simp only [Option.some_bind]
  rw [takeDigits_pad2 d.hour (by omega)]
  simp only [Option.some_bind]
  rw [expectChar_cons]
  simp only [Option.some_bind]
  rw [takeDigits_pad2 d.minute (by omega)]
  simp only [Option.some_bind]
  rw [expectChar_cons]
  simp only [Option.some_bind]
  rw [takeDigits_pad2 d.second (by omega)]
  simp only [Option.some_bind]
  rw [parseIsoOffset_offsetChars _ h10 h11]
  simp only [Option.some_bind]
  rw [if_pos (show ([] : List Char).isEmpty = true from rfl)]
  unfold mkValidDt
  dsimp only
  rw [if_pos (show validDt
    ⟨d.year, d.month, d.day, d.hour, d.minute, d.second, d.tzOffsetMinutes⟩ = true from h)]

/-- Claim C4: every string accepted by the strptime pattern parses to a
datetime that, serialized with isoformat for storage and parsed back with
fromisoformat, yields an instant identical to the first parse — same
wall-clock fields and same UTC offset. -/
theorem timestamp_roundtrip (s : String) (d : PyDatetime)
    (h : parseAppleDatetime s = some d) : parseIsoDatetime (dtToIso d) = some d :=
  validDt_roundtrip d (parseAppleDatetime_valid s d h)

theorem timestamp_roundtrip_witness :
    parseAppleDatetime "2020-01-01 10:00:00 +0100" = some dtA ∧
    dtToIso dtA = "2020-01-01T10:00:00+01:00" ∧
    parseIsoDatetime "2020-01-01T10:00:00+01:00" = some dtA := by
  have h := timestamp_roundtrip "2020-01-01 10:00:00 +0100" dtA (by decide)
  have he : dtToIso dtA = "2020-01-01T10:00:00+01:00" := by decide
  rw [he] at h
  exact ⟨by decide, he, h⟩

end AppleHealth
